import Mathlib

/-!
# Verification of the user-account services module (`app/user/services.py`)

This file gives a shallow embedding of the user-management services of the
FastAPI-Blog repository — password handling, authentication, the follow
relation, email dispatch and avatar storage — and proves (or refutes) the
specified properties about them.

The database session is modelled as a list of `User` rows threaded through
every operation; fallible Python code (exceptions such as `KeyError`,
`ValueError`, `AssertionError`, attribute errors on `None`) becomes
`Except String`.  Parts of the repository that sit outside the provided
source excerpt (the security primitives, the generic `CRUDBase`, the ORM
model declarations) are modelled from the specification and say so in their
doc comments.
-/

namespace FastAPIBlog

/-- The `User` entity (spec §3): unique id, unique email, hashed password,
active flag, superuser flag, optional avatar path, and the `following`
relation as the list of user ids this user follows. -/
structure User where
  id : Nat
  email : String
  hashed_password : String
  is_active : Bool
  is_superuser : Bool
  image : Option String
  following : List Nat
  deriving Repr, DecidableEq

/-- The database session state: the persisted user rows. -/
abbrev DB := List User

/-- Modelled from the spec: `config.security.get_password_hash` is not under
the provided source.  Spec §6 gives `hash(plaintext) -> hashString`; we use a
concrete injective tagging so hashes of distinct plaintexts differ. -/
def get_password_hash (plaintext : String) : String :=
  "$bcrypt$" ++ plaintext

/-- Modelled from the spec: `config.security.verify_password` is not under
the provided source.  Spec §6 gives `verify(plaintext, hashString) -> bool`,
true exactly when the plaintext hashes to the stored hash. -/
def verify_password (plaintext hashed : String) : Bool :=
  get_password_hash plaintext == hashed

/-- Look up a key in a Python-dict-like payload (first binding wins;
`setKey` below keeps bindings unique, matching dict semantics). -/
def lookupKey (data : List (String × String)) (k : String) : Option String :=
  match data with
  | [] => none
  | (k', v) :: rest => if k' == k then some v else lookupKey rest k

/-- `del d[k]`: drop every binding of `k`. -/
def removeKey (data : List (String × String)) (k : String) : List (String × String) :=
  data.filter (fun kv => kv.1 != k)

/-- `d[k] = v`: overwrite the binding of `k`. -/
def setKey (data : List (String × String)) (k v : String) : List (String × String) :=
  removeKey data k ++ [(k, v)]

/-- `db.query(User).filter(User.id == uid).first()` / `crud.get(db, id=uid)`. -/
def getById (db : DB) (uid : Nat) : Option User :=
  db.find? (fun u => u.id == uid)

/-- `crud.get(db, email=email)`: first user row with that email. -/
def getByEmail (db : DB) (email : String) : Option User :=
  db.find? (fun u => u.email == email)

/-- Committing a loaded-and-mutated row: replace the first row with the
given id by the mutated object (`db.add(obj); db.commit()`). -/
def commitRow (db : DB) (uid : Nat) (u : User) : DB :=
  match db with
  | [] => []
  | v :: rest => if v.id == uid then u :: rest else v :: commitRow rest uid u

/-- `CRUDUser.create` (services.py lines 24–33): builds a row from email and
the hash of the plaintext password, persists and returns it.  The ORM model
defaults (`is_active=True`, no image, empty following) come from spec §3. -/
def create (db : DB) (next_id : Nat) (email password : String)
    (is_superuser : Bool) : User × DB :=
  let db_obj : User :=
    { id := next_id
      email := email
      hashed_password := get_password_hash password
      is_active := true
      is_superuser := is_superuser
      image := none
      following := [] }
  (db_obj, db ++ [db_obj])

/-- The payload transformation inside `CRUDUser.update` (services.py lines
38–45): `update_data["password"]` raises `KeyError` when the key is absent;
when present, the Python truthiness test `if update_data["password"]:` is
false for the empty string, so only a non-empty password is hashed, deleted
from the payload and replaced by a `hashed_password` entry. -/
def update_data_transform (obj_in : List (String × String)) :
    Except String (List (String × String)) :=
  match lookupKey obj_in "password" with
  | none => .error "KeyError: password"
  | some pw =>
    if pw ≠ "" then
      .ok (setKey (removeKey obj_in "password") "hashed_password"
            (get_password_hash pw))
    else
      .ok obj_in

/-- Modelled from the spec: `app.base.crud.CRUDBase.update` is not under the
provided source.  Spec §6: `update(entity, fields) -> entity` sets each
supplied field that exists on the entity and persists the refreshed row;
keys that are not entity columns (such as a leftover plaintext `password`)
are not persisted. -/
def crudbase_update_fields (u : User) (data : List (String × String)) : User :=
  let u1 := match lookupKey data "email" with
    | some e => { u with email := e }
    | none => u
  let u2 := match lookupKey data "hashed_password" with
    | some h => { u1 with hashed_password := h }
    | none => u1
  match lookupKey data "image" with
  | some p => { u2 with image := some p }
  | none => u2

/-- `CRUDUser.update` (services.py lines 35–46): transform the payload, then
delegate to the generic update and persist. -/
def update (db : DB) (db_obj : User) (obj_in : List (String × String)) :
    Except String (User × DB) :=
  match update_data_transform obj_in with
  | .error e => .error e
  | .ok data =>
    let u' := crudbase_update_fields db_obj data
    .ok (u', commitRow db db_obj.id u')

/-- `CRUDUser.authenticate` (services.py lines 48–54): pure read; returns
the session unchanged alongside the optional user. -/
def authenticate (db : DB) (email password : String) : Option User × DB :=
  match getByEmail db email with
  | none => (none, db)
  | some user =>
    if verify_password password user.hashed_password then (some user, db)
    else (none, db)

/-- `CRUDUser.is_active` (services.py line 56). -/
def is_active (u : User) : Bool := u.is_active

/-- `CRUDUser.is_superuser` (services.py line 59). -/
def is_superuser (u : User) : Bool := u.is_superuser

/-- Modelled from the spec: the ORM declaration of the `following`
collection (`app/user/models.py`) is not under the provided source.  Spec §3
makes it an unordered set with the invariant that a user may not appear
twice, and §4.2 makes adding an already-followed user a non-duplicating
operation; so `following.append(followed_user)` inserts the id only when it
is not already present. -/
def followingAppend (l : List Nat) (x : Nat) : List Nat :=
  if x ∈ l then l else l ++ [x]

/-- `following.remove(followed_user)`: removes the first entry for the given
id; raises (`ValueError`-like, spec §7 a NotFoundError-like condition) when
the id is not in the collection. -/
def followingRemove (l : List Nat) (x : Nat) : Except String (List Nat) :=
  match l with
  | [] => .error "ValueError: list.remove(x): x not in list"
  | y :: rest =>
    if y == x then .ok rest
    else match followingRemove rest x with
      | .ok rest' => .ok (y :: rest')
      | .error e => .error e

/-- `follow` (services.py lines 66–78): loads the acting user
(`current_user_id`) and the target (`user_id`); on `"follow"` appends the
target to the actor's following collection, on `"unfollow"` removes it, on
any other action mutates nothing; then persists and returns the actor.  A
missing actor crashes (`None` dereference); a missing target crashes on the
two recognised actions (appending/removing `None`), but the unrecognised-
action branch never touches it. -/
def follow (action : String) (db : DB) (user_id current_user_id : Nat) :
    Except String (User × DB) :=
  match getById db current_user_id with
  | none => .error "AttributeError: NoneType has no attribute following"
  | some follower_user =>
    if action = "follow" then
      match getById db user_id with
      | none => .error "cannot append None to a relationship collection"
      | some followed_user =>
        let follower' :=
          { follower_user with
              following := followingAppend follower_user.following followed_user.id }
        .ok (follower', commitRow db current_user_id follower')
    else if action = "unfollow" then
      match getById db user_id with
      | none => .error "ValueError: list.remove(x): x not in list"
      | some followed_user =>
        match followingRemove follower_user.following followed_user.id with
        | .error e => .error e
        | .ok l' =>
          let follower' := { follower_user with following := l' }
          .ok (follower', commitRow db current_user_id follower')
    else
      .ok (follower_user, commitRow db current_user_id follower_user)

/-- Process-wide configuration surface read by the notification service
(spec §6). -/
structure Settings where
  EMAILS_ENABLED : Bool
  SMTP_HOST : String
  SMTP_PORT : Nat
  SMTP_TLS : Bool
  SMTP_USER : String
  SMTP_PASSWORD : String
  EMAILS_FROM_NAME : String
  EMAILS_FROM_EMAIL : String
  deriving Repr, DecidableEq

/-- Observable effects of `send_email`, in program order: building the
message object, then the SMTP dispatch. -/
inductive EmailStep where
  | buildMessage (subject html from_name from_email : String)
  | smtpSend (email_to : String) (smtp_options : List (String × String))
  deriving Repr, DecidableEq

/-- `send_email` (services.py lines 81–101): the first statement asserts
`settings.EMAILS_ENABLED`; only past that assertion is the message built,
the SMTP option dict assembled (tls/user/password only when configured) and
the network send performed.  The result is the ordered effect trace; the
assertion failure carries no effects. -/
def send_email (s : Settings) (email_to subject_template html_template : String) :
    Except String (List EmailStep) :=
  if s.EMAILS_ENABLED then
    let message := EmailStep.buildMessage subject_template html_template
      s.EMAILS_FROM_NAME s.EMAILS_FROM_EMAIL
    let opts0 := [("host", s.SMTP_HOST), ("port", toString s.SMTP_PORT)]
    let opts1 := if s.SMTP_TLS then opts0 ++ [("tls", "True")] else opts0
    let opts2 := if s.SMTP_USER ≠ "" then opts1 ++ [("user", s.SMTP_USER)] else opts1
    let opts3 := if s.SMTP_PASSWORD ≠ "" then
        opts2 ++ [("password", s.SMTP_PASSWORD)]
      else opts2
    .ok [message, EmailStep.smtpSend email_to opts3]
  else
    .error "AssertionError: no provided configuration for email variables"

/-- `re.split("\\.", filename)`: split a character list on every literal
period. -/
def splitOnDot : List Char → List (List Char)
  | [] => [[]]
  | c :: cs =>
    if c = '.' then [] :: splitOnDot cs
    else
      match splitOnDot cs with
      | r :: rs => (c :: r) :: rs
      | [] => [[c]]

/-- `generate_unique_img_name` (services.py lines 145–148): unpacks
`name, ext = re.split("\\.", filename)` — a `ValueError` unless the split
yields exactly two parts, i.e. the filename holds exactly one period — and
returns `name + "_" + token + "." + ext`, where `token` is the fresh
`uuid.uuid4().hex` value supplied by the environment. -/
def generate_unique_img_name (token : List Char) (filename : List Char) :
    Except String (List Char) :=
  match splitOnDot filename with
  | [name, ext] => .ok (name ++ '_' :: token ++ '.' :: ext)
  | _ => .error "ValueError: unpacking re.split result"

/-- `save_image_in_db` (services.py lines 151–157): loads the user by id
(crashing on `None` when absent), sets the avatar path field and persists
the row. -/
def save_image_in_db (db : DB) (file_path : String) (user_id : Nat) :
    Except String (User × DB) :=
  match getById db user_id with
  | none => .error "AttributeError: NoneType has no attribute image"
  | some user =>
    let user' := { user with image := some file_path }
    .ok (user', commitRow db user_id user')

/-- A concrete user row used to instantiate the theorems below. -/
def alice : User :=
  { id := 1
    email := "alice@example.com"
    hashed_password := get_password_hash "alicepw"
    is_active := true
    is_superuser := false
    image := none
    following := [] }

/-- A second concrete user row. -/
def bob : User :=
  { id := 2
    email := "bob@example.com"
    hashed_password := get_password_hash "bobpw"
    is_active := true
    is_superuser := true
    image := none
    following := [] }

/-- A concrete configuration with email delivery disabled. -/
def disabledSettings : Settings :=
  { EMAILS_ENABLED := false
    SMTP_HOST := "smtp.example.com"
    SMTP_PORT := 587
    SMTP_TLS := true
    SMTP_USER := "mailer"
    SMTP_PASSWORD := "secret"
    EMAILS_FROM_NAME := "Blog"
    EMAILS_FROM_EMAIL := "noreply@example.com" }

/-! ## Helper lemmas about the session and payload primitives -/

theorem getById_id {db : DB} {uid : Nat} {u : User}
    (h : getById db uid = some u) : u.id = uid := by
  have := List.find?_some h
  simpa using this

theorem getByEmail_email {db : DB} {e : String} {u : User}
    (h : getByEmail db e = some u) : u.email = e := by
  have := List.find?_some h
  simpa using this

theorem find?_append_skip (p : User → Bool) (pre rest : DB)
    (h : ∀ v ∈ pre, p v = false) :
    List.find? p (pre ++ rest) = List.find? p rest := by
  induction pre with
  | nil => rfl
  | cons v vs ih =>
    have hv : p v = false := h v (List.mem_cons_self v vs)
    simp only [List.cons_append, List.find?_cons, hv]
    exact ih (fun w hw => h w (List.mem_cons_of_mem v hw))

theorem commitRow_decomp {db : DB} {uid : Nat} {u : User}
    (h : getById db uid = some u) (u' : User) :
    ∃ pre post, db = pre ++ u :: post ∧
      (∀ v ∈ pre, (v.id == uid) = false) ∧
      commitRow db uid u' = pre ++ u' :: post := by
  induction db with
  | nil => simp [getById] at h
  | cons v rest ih =>
    rcases hv : (v.id == uid) with _ | _
    · have h' : getById rest uid = some u := by
        simpa [getById, List.find?_cons, hv] using h
      rcases ih h' with ⟨pre, post, hdb, hpre, hcommit⟩
      refine ⟨v :: pre, post, by simp [hdb], ?_, ?_⟩
      · intro w hw
        rcases List.mem_cons.mp hw with hw | hw
        · subst hw; exact hv
        · exact hpre w hw
      · simp [commitRow, hv, hcommit]
    · have hu : v = u := by
        simpa [getById, List.find?_cons, hv] using h
      subst hu
      exact ⟨[], rest, rfl, by simp, by simp [commitRow, hv]⟩

theorem commitRow_self {db : DB} {uid : Nat} {u : User}
    (h : getById db uid = some u) : commitRow db uid u = db := by
  rcases commitRow_decomp h u with ⟨pre, post, hdb, _, hcommit⟩
  rw [hcommit, hdb]

theorem getById_of_decomp {pre post : DB} {uid : Nat} {u' : User}
    (hpre : ∀ v ∈ pre, (v.id == uid) = false) (hid : u'.id = uid) :
    getById (pre ++ u' :: post) uid = some u' := by
  unfold getById
  rw [find?_append_skip _ pre _ hpre]
  simp [List.find?_cons, hid]

theorem getById_replace_ne {pre post : DB} {w w' : User} {t : Nat}
    (hw : (w.id == t) = false) (hw' : (w'.id == t) = false) :
    getById (pre ++ w' :: post) t = getById (pre ++ w :: post) t := by
  induction pre with
  | nil => simp [getById, List.find?_cons, hw, hw']
  | cons v vs ih =>
    simp only [getById, List.cons_append, List.find?_cons] at ih ⊢
    rcases hv : (v.id == t) with _ | _ <;> simp [hv, ih]

theorem lookupKey_append_left_none {d1 d2 : List (String × String)} {k : String}
    (h : lookupKey d1 k = none) : lookupKey (d1 ++ d2) k = lookupKey d2 k := by
  induction d1 with
  | nil => rfl
  | cons kv rest ih =>
    rcases hkv : (kv.1 == k) with _ | _
    · have h' : lookupKey rest k = none := by
        simpa [lookupKey, hkv] using h
      simpa [lookupKey, hkv] using ih h'
    · simp [lookupKey, hkv] at h

theorem lookupKey_removeKey_self (d : List (String × String)) (k : String) :
    lookupKey (removeKey d k) k = none := by
  induction d with
  | nil => rfl
  | cons kv rest ih =>
    rcases hkv : (kv.1 == k) with _ | _
    · have : (kv.1 != k) = true := by simp [bne, hkv]
      simpa [removeKey, List.filter_cons, this, lookupKey, hkv] using ih
    · have : (kv.1 != k) = false := by simp [bne, hkv]
      simpa [removeKey, List.filter_cons, this] using ih

theorem lookupKey_removeKey_ne {d : List (String × String)} {k k' : String}
    (h : k ≠ k') : lookupKey (removeKey d k') k = lookupKey d k := by
  induction d with
  | nil => rfl
  | cons kv rest ih =>
    rcases hkv : (kv.1 == k') with _ | _
    · have : (kv.1 != k') = true := by simp [bne, hkv]
      simp [removeKey, List.filter_cons, this, lookupKey] at ih ⊢
      rcases hk : (kv.1 == k) with _ | _ <;> simp [hk, ih]
    · have hkk : (kv.1 == k) = false := by
        have : kv.1 = k' := by simpa using hkv
        simp [this, h.symm]
      have : (kv.1 != k') = false := by simp [bne, hkv]
      simp [removeKey, List.filter_cons, this, lookupKey, hkk] at ih ⊢
      simpa [removeKey] using ih

theorem lookupKey_setKey_self (d : List (String × String)) (k v : String) :
    lookupKey (setKey d k v) k = some v := by
  unfold setKey
  rw [lookupKey_append_left_none (lookupKey_removeKey_self d k)]
  simp [lookupKey]

theorem lookupKey_setKey_ne {d : List (String × String)} {k k' v : String}
    (h : k ≠ k') : lookupKey (setKey d k' v) k = lookupKey d k := by
  unfold setKey
  induction d with
  | nil => simp [lookupKey, removeKey, Ne.symm h]
  | cons kv rest ih =>
    rcases hkv : (kv.1 == k') with _ | _
    · have : (kv.1 != k') = true := by simp [bne, hkv]
      simp only [removeKey, List.filter_cons, this, cond_true, List.cons_append,
        lookupKey] at ih ⊢
      rcases hk : (kv.1 == k) with _ | _
      · simpa [removeKey, hk] using ih
      · simp [hk]
    · have hkk : (kv.1 == k) = false := by
        have : kv.1 = k' := by simpa using hkv
        simp [this, h.symm]
      have : (kv.1 != k') = false := by simp [bne, hkv]
      simp only [removeKey, List.filter_cons, this, cond_false, lookupKey, hkk] at ih ⊢
      simpa [removeKey] using ih

/-! ## Helper lemmas about the following collection -/

theorem mem_followingAppend_self (l : List Nat) (x : Nat) :
    x ∈ followingAppend l x := by
  unfold followingAppend
  by_cases hx : x ∈ l <;> simp [hx]

theorem followingAppend_of_mem {l : List Nat} {x : Nat} (h : x ∈ l) :
    followingAppend l x = l := by
  simp [followingAppend, h]

theorem followingAppend_of_not_mem {l : List Nat} {x : Nat} (h : x ∉ l) :
    followingAppend l x = l ++ [x] := by
  simp [followingAppend, h]

theorem count_followingAppend {l : List Nat} {x : Nat}
    (h : l.count x ≤ 1) : (followingAppend l x).count x = 1 := by
  by_cases hx : x ∈ l
  · rw [followingAppend_of_mem hx]
    have hpos : 0 < l.count x := List.count_pos_iff.mpr hx
    omega
  · rw [followingAppend_of_not_mem hx]
    have hz : l.count x = 0 := List.count_eq_zero.mpr hx
    simp [List.count_append, hz]

theorem followingRemove_of_not_mem {l : List Nat} {x : Nat} (h : x ∉ l) :
    followingRemove l x = .error "ValueError: list.remove(x): x not in list" := by
  induction l with
  | nil => rfl
  | cons y rest ih =>
    have hyx : (y == x) = false := by
      simp only [List.mem_cons, not_or] at h
      simpa using Ne.symm h.1
    have hrest : x ∉ rest := by
      simp only [List.mem_cons, not_or] at h
      exact h.2
    simp [followingRemove, hyx, ih hrest]

theorem followingRemove_of_mem {l : List Nat} {x : Nat} (h : x ∈ l) :
    followingRemove l x = .ok (l.erase x) := by
  induction l with
  | nil => simp at h
  | cons y rest ih =>
    rcases hyx : (y == x) with _ | _
    · have hyx' : y ≠ x := by simpa using hyx
      have hrest : x ∈ rest := by
        rcases List.mem_cons.mp h with h | h
        · exact absurd h.symm hyx'
        · exact h
      have hY : (x == y) = false := by simp [Ne.symm hyx']
      simp [followingRemove, hyx, ih hrest, List.erase_cons, hyx']
    · have hy : y = x := by simpa using hyx
      subst hy
      simp [followingRemove, List.erase_cons]

theorem followingRemove_append_self {l : List Nat} {x : Nat} (h : x ∉ l) :
    followingRemove (l ++ [x]) x = .ok l := by
  have hmem : x ∈ l ++ [x] := by simp
  rw [followingRemove_of_mem hmem]
  have : (l ++ [x]).erase x = l := by
    rw [List.erase_append_right _ h]
    simp
  rw [this]

/-! ## Helper lemmas about filename splitting -/

theorem splitOnDot_ne_nil (l : List Char) : splitOnDot l ≠ [] := by
  induction l with
  | nil => simp [splitOnDot]
  | cons c cs ih =>
    unfold splitOnDot
    by_cases hc : c = '.'
    · simp [hc]
    · rcases hsplit : splitOnDot cs with _ | ⟨r, rs⟩
      · exact absurd hsplit ih
      · simp [hc, hsplit]

theorem length_splitOnDot (l : List Char) :
    (splitOnDot l).length = l.count '.' + 1 := by
  induction l with
  | nil => simp [splitOnDot]
  | cons c cs ih =>
    unfold splitOnDot
    by_cases hc : c = '.'
    · simp [hc, List.count_cons, ih]
    · rcases hsplit : splitOnDot cs with _ | ⟨r, rs⟩
      · exact absurd hsplit (splitOnDot_ne_nil cs)
      · have hcc : ('.' = c) = False := by simp [Ne.symm hc]
        rw [hsplit] at ih
        simp only [List.length_cons] at ih
        simp [hc, hsplit, List.count_cons, Ne.symm hc, ih]

theorem splitOnDot_no_dot {l : List Char} (h : '.' ∉ l) : splitOnDot l = [l] := by
  induction l with
  | nil => rfl
  | cons c cs ih =>
    have hc : c ≠ '.' := by
      simp only [List.mem_cons, not_or] at h
      exact fun he => h.1 he.symm
    have hcs : '.' ∉ cs := by
      simp only [List.mem_cons, not_or] at h
      exact h.2
    unfold splitOnDot
    simp [hc, ih hcs]

theorem splitOnDot_single {name ext : List Char}
    (hn : '.' ∉ name) (he : '.' ∉ ext) :
    splitOnDot (name ++ '.' :: ext) = [name, ext] := by
  induction name with
  | nil =>
    simp only [List.nil_append]
    unfold splitOnDot
    simp [splitOnDot_no_dot he]
  | cons c cs ih =>
    have hc : c ≠ '.' := by
      simp only [List.mem_cons, not_or] at hn
      exact fun hcc => hn.1 hcc.symm
    have hcs : '.' ∉ cs := by
      simp only [List.mem_cons, not_or] at hn
      exact hn.2
    simp only [List.cons_append]
    unfold splitOnDot
    simp [hc, ih hcs]

/-! ## Helper lemmas about the generic update fields -/

theorem crudbase_hashed_password (u : User) (data : List (String × String)) :
    (crudbase_update_fields u data).hashed_password =
      (match lookupKey data "hashed_password" with
        | some h => h
        | none => u.hashed_password) := by
  unfold crudbase_update_fields
  rcases h1 : lookupKey data "email" with _ | e <;>
    rcases h2 : lookupKey data "hashed_password" with _ | hp <;>
      rcases h3 : lookupKey data "image" with _ | p <;> simp

/-! ## Helper lemmas about the follow operation -/

theorem follow_action_follow {db : DB} {t a : Nat} {actor target : User}
    (ha : getById db a = some actor) (ht : getById db t = some target) :
    follow "follow" db t a =
      .ok ({ actor with following := followingAppend actor.following t },
        commitRow db a { actor with following := followingAppend actor.following t }) := by
  have hid : target.id = t := getById_id ht
  unfold follow
  simp [ha, ht, hid]

theorem follow_unfollow_err {db : DB} {t a : Nat} {actor target : User}
    (ha : getById db a = some actor) (ht : getById db t = some target)
    (hnot : t ∉ actor.following) :
    follow "unfollow" db t a =
      .error "ValueError: list.remove(x): x not in list" := by
  have hid : target.id = t := getById_id ht
  unfold follow
  simp [ha, ht, hid, followingRemove_of_not_mem hnot]

theorem follow_unfollow_ok {db : DB} {t a : Nat} {actor target : User}
    (ha : getById db a = some actor) (ht : getById db t = some target)
    (hmem : t ∈ actor.following) :
    follow "unfollow" db t a =
      .ok ({ actor with following := actor.following.erase t },
        commitRow db a { actor with following := actor.following.erase t }) := by
  have hid : target.id = t := getById_id ht
  unfold follow
  simp [ha, ht, hid, followingRemove_of_mem hmem]

theorem follow_action_other {action : String} {db : DB} {t a : Nat} {actor : User}
    (h1 : action ≠ "follow") (h2 : action ≠ "unfollow")
    (ha : getById db a = some actor) :
    follow action db t a = .ok (actor, commitRow db a actor) := by
  unfold follow
  simp [ha, h1, h2]

theorem getById_after_commit {db : DB} {a : Nat} {actor : User}
    (ha : getById db a = some actor) {u1 : User} (hid : u1.id = a) :
    getById (commitRow db a u1) a = some u1 := by
  rcases commitRow_decomp ha u1 with ⟨pre, post, _, hpre, hcommit⟩
  rw [hcommit]
  exact getById_of_decomp hpre hid

theorem getById_target_after_commit {db : DB} {a t : Nat} {actor target : User}
    (u1 : User) (ha : getById db a = some actor) (ht : getById db t = some target)
    (hid : u1.id = actor.id) :
    ∃ w, getById (commitRow db a u1) t = some w ∧ w.id = t := by
  by_cases hta : t = a
  · subst hta
    refine ⟨u1, getById_after_commit ha ?_, ?_⟩ <;>
      simp [hid, getById_id ha]
  · rcases commitRow_decomp ha u1 with ⟨pre, post, hdb, _, hcommit⟩
    have hactor : (actor.id == t) = false := by
      simp [getById_id ha, Ne.symm hta]
    have hu1 : (u1.id == t) = false := by
      simp [hid, getById_id ha, Ne.symm hta]
    refine ⟨target, ?_, getById_id ht⟩
    rw [hcommit, getById_replace_ne hactor hu1, ← hdb]
    exact ht

theorem commitRow_commitRow (db : DB) (uid : Nat) (u1 u2 : User)
    (h1 : u1.id = uid) :
    commitRow (commitRow db uid u1) uid u2 = commitRow db uid u2 := by
  induction db with
  | nil => rfl
  | cons v rest ih =>
    rcases hv : (v.id == uid) with _ | _
    · simp [commitRow, hv, ih]
    · simp [commitRow, hv, h1]

/-! ## Claim theorems -/

/-- C2: `follow` with action `"follow"` is idempotent: for every pair of
existing users (actor at `a`, target at `t`) whose following collection
satisfies the no-duplicate invariant for `t`, one call leaves the actor with
exactly one following entry for the target, and a second call returns the
same actor record and the same database state as the first. -/
theorem follow_follow_idempotent (db : DB) (t a : Nat) (actor target : User)
    (ha : getById db a = some actor) (ht : getById db t = some target)
    (hcount : actor.following.count t ≤ 1) :
    ∃ u1 db1, follow "follow" db t a = .ok (u1, db1) ∧
      u1.following.count t = 1 ∧
      follow "follow" db1 t a = .ok (u1, db1) := by
  have h1 := follow_action_follow ha ht
  refine ⟨{ actor with following := followingAppend actor.following t },
    commitRow db a { actor with following := followingAppend actor.following t },
    h1, count_followingAppend hcount, ?_⟩
  set u1 : User := { actor with following := followingAppend actor.following t }
    with hu1
  have hu1id : u1.id = a := by rw [hu1]; simpa using getById_id ha
  have ha1 : getById (commitRow db a u1) a = some u1 :=
    getById_after_commit ha hu1id
  obtain ⟨w, hw, hwid⟩ := getById_target_after_commit u1 ha ht rfl
  have h2 := follow_action_follow ha1 hw
  rw [h2]
  have hmem : t ∈ u1.following := mem_followingAppend_self _ _
  have heq : { u1 with following := followingAppend u1.following t } = u1 := by
    rw [followingAppend_of_mem hmem]
  rw [heq, commitRow_self ha1]

/-- C2 witness: in a two-user database, following user 2 twice from user 1
yields exactly one entry and the same state as a single call. -/
theorem follow_follow_idempotent_witness :
    ∃ u1 db1, follow "follow" [alice, bob] 2 1 = .ok (u1, db1) ∧
      u1.following.count 2 = 1 ∧
      follow "follow" db1 2 1 = .ok (u1, db1) :=
  follow_follow_idempotent [alice, bob] 2 1 alice bob rfl rfl (by decide)

/-- C5: `follow` with action `"unfollow"` fails with the `ValueError` raised
by removing an absent element when the target is not in the actor's
following collection; when the target is present, exactly the one entry for
it is removed (the count for the target drops by one and the count for every
other id is unchanged). -/
theorem follow_unfollow_spec (db : DB) (t a : Nat) (actor target : User)
    (ha : getById db a = some actor) (ht : getById db t = some target) :
    (t ∉ actor.following →
      follow "unfollow" db t a =
        .error "ValueError: list.remove(x): x not in list") ∧
    (t ∈ actor.following → ∃ u' db', follow "unfollow" db t a = .ok (u', db') ∧
      u'.following = actor.following.erase t ∧
      u'.following.count t = actor.following.count t - 1 ∧
      ∀ x, x ≠ t → u'.following.count x = actor.following.count x) := by
  constructor
  · intro hnot
    exact follow_unfollow_err ha ht hnot
  · intro hmem
    refine ⟨{ actor with following := actor.following.erase t }, _,
      follow_unfollow_ok ha ht hmem, rfl, ?_, ?_⟩
    · exact List.count_erase_self t actor.following
    · intro x hx
      exact List.count_erase_of_ne hx actor.following

/-- C5 witness: with user 1 not following anyone, unfollowing user 2 fails;
with user 1 following user 2, unfollowing removes exactly that entry. -/
theorem follow_unfollow_spec_witness :
    (follow "unfollow" [alice, bob] 2 1 =
      .error "ValueError: list.remove(x): x not in list") ∧
    (∃ u' db',
      follow "unfollow" [{ alice with following := [2] }, bob] 2 1 =
        .ok (u', db') ∧
      u'.following = ([2] : List Nat).erase 2 ∧
      u'.following.count 2 = ([2] : List Nat).count 2 - 1 ∧
      ∀ x, x ≠ 2 → u'.following.count x = ([2] : List Nat).count x) :=
  ⟨(follow_unfollow_spec [alice, bob] 2 1 alice bob rfl rfl).1 (by decide),
   (follow_unfollow_spec [{ alice with following := [2] }, bob] 2 1
      { alice with following := [2] } bob rfl rfl).2 (by decide)⟩

/-- C6: unfollow inverts follow: for existing users where the actor does not
already follow the target, `follow "follow"` then `follow "unfollow"`
returns the actor's original record (original following set included) and
restores the database to its original state. -/
theorem follow_unfollow_roundtrip (db : DB) (t a : Nat) (actor target : User)
    (ha : getById db a = some actor) (ht : getById db t = some target)
    (hnot : t ∉ actor.following) :
    ∃ u1 db1, follow "follow" db t a = .ok (u1, db1) ∧
      follow "unfollow" db1 t a = .ok (actor, db) := by
  have h1 := follow_action_follow ha ht
  refine ⟨{ actor with following := followingAppend actor.following t },
    commitRow db a { actor with following := followingAppend actor.following t },
    h1, ?_⟩
  set u1 : User := { actor with following := followingAppend actor.following t }
    with hu1
  have hu1id : u1.id = a := by rw [hu1]; simpa using getById_id ha
  have ha1 : getById (commitRow db a u1) a = some u1 :=
    getById_after_commit ha hu1id
  obtain ⟨w, hw, hwid⟩ := getById_target_after_commit u1 ha ht rfl
  have hmem : t ∈ u1.following := mem_followingAppend_self _ _
  have h2 := follow_unfollow_ok ha1 hw hmem
  rw [h2]
  have hfol : u1.following.erase t = actor.following := by
    rw [hu1]
    show (followingAppend actor.following t).erase t = actor.following
    rw [followingAppend_of_not_mem hnot, List.erase_append_right _ hnot]
    simp
  have heq : { u1 with following := u1.following.erase t } = actor := by
    rw [hu1, hfol]
  rw [heq, commitRow_commitRow db a u1 actor hu1id, commitRow_self ha]

/-- C6 witness: user 1 follows user 2 then unfollows; the original record
and database state come back. -/
theorem follow_unfollow_roundtrip_witness :
    ∃ u1 db1, follow "follow" [alice, bob] 2 1 = .ok (u1, db1) ∧
      follow "unfollow" db1 2 1 = .ok (alice, [alice, bob]) :=
  follow_unfollow_roundtrip [alice, bob] 2 1 alice bob rfl rfl (by decide)

/-- C8: for any action string other than the literals `"follow"` and
`"unfollow"`, `follow` mutates nothing: it persists the unchanged actor row
(leaving the database state equal to the original) and returns the
unchanged actor record. -/
theorem follow_unrecognized_action (action : String) (db : DB) (t a : Nat)
    (actor : User) (h1 : action ≠ "follow") (h2 : action ≠ "unfollow")
    (ha : getById db a = some actor) :
    follow action db t a = .ok (actor, db) := by
  rw [follow_action_other h1 h2 ha, commitRow_self ha]

/-- C8 witness: a `"like"` action returns user 1 unchanged with the
database untouched. -/
theorem follow_unrecognized_action_witness :
    follow "like" [alice, bob] 2 1 = .ok (alice, [alice, bob]) :=
  follow_unrecognized_action "like" [alice, bob] 2 1 alice
    (by decide) (by decide) rfl

/-- C3: `authenticate` returns a user exactly when the email lookup finds
that user and the supplied password verifies against its stored hash; an
unknown email yields `none`, and a known email with a non-verifying password
yields the same `none`, so the two failures are indistinguishable in the
returned value; and any user just created via `create` with a fresh email
authenticates successfully with the password it was created with. -/
theorem authenticate_spec (db : DB) (e p : String) :
    (∀ u, (authenticate db e p).1 = some u ↔
      (getByEmail db e = some u ∧ verify_password p u.hashed_password = true)) ∧
    (getByEmail db e = none → (authenticate db e p).1 = none) ∧
    (∀ u, getByEmail db e = some u → verify_password p u.hashed_password = false →
      (authenticate db e p).1 = none) ∧
    (∀ next_id sup, (∀ v ∈ db, v.email ≠ e) →
      (authenticate (create db next_id e p sup).2 e p).1 =
        some (create db next_id e p sup).1) := by
  refine ⟨?_, ?_, ?_, ?_⟩
  · intro u
    unfold authenticate
    rcases h : getByEmail db e with _ | u0
    · simp
    · rcases hv : verify_password p u0.hashed_password with _ | _
      · simp only [hv, Bool.false_eq_true, if_false]
        constructor
        · intro hu; simp at hu
        · rintro ⟨hu, hvv⟩
          rw [Option.some_inj] at hu
          rw [← hu, hv] at hvv
          simp at hvv
      · simp only [hv, if_true]
        constructor
        · intro hu
          rw [Option.some_inj] at hu
          subst hu
          exact ⟨rfl, hv⟩
        · rintro ⟨hu, _⟩
          rw [Option.some_inj] at hu
          rw [hu]
  · intro h
    unfold authenticate
    rw [h]
  · intro u h hv
    unfold authenticate
    rw [h]
    simp [hv]
  · intro next_id sup hfresh
    have hskip : ∀ v ∈ db, (fun u => u.email == e) v = false := by
      intro v hvmem
      simpa using hfresh v hvmem
    have hget : getByEmail (create db next_id e p sup).2 e =
        some (create db next_id e p sup).1 := by
      show getByEmail (db ++ [(create db next_id e p sup).1]) e =
        some (create db next_id e p sup).1
      unfold getByEmail
      rw [find?_append_skip _ db _ hskip]
      simp [List.find?_cons, create]
    unfold authenticate
    rw [hget]
    simp [verify_password, create]

/-- C3 witness: with a fresh database, a user created with `alice`'s email
and password authenticates; the wrong password and an unknown email both
yield `none`. -/
theorem authenticate_spec_witness :
    ((authenticate (create [] 1 "alice@example.com" "alicepw" false).2
        "alice@example.com" "alicepw").1 =
      some (create [] 1 "alice@example.com" "alicepw" false).1) ∧
    (authenticate [alice] "alice@example.com" "wrongpw").1 = none ∧
    (authenticate [alice] "nobody@example.com" "alicepw").1 = none :=
  ⟨(authenticate_spec [] "alice@example.com" "alicepw").2.2.2 1 false
      (by simp),
   (authenticate_spec [alice] "alice@example.com" "wrongpw").2.2.1 alice
      rfl (by decide),
   (authenticate_spec [alice] "nobody@example.com" "alicepw").2.1 rfl⟩

/-- C9: `authenticate` is a pure read: for every database state and every
email/password input, the session state it returns is exactly the one it
was given. -/
theorem authenticate_pure (db : DB) (e p : String) :
    (authenticate db e p).2 = db := by
  unfold authenticate
  rcases h : getByEmail db e with _ | u
  · rfl
  · rcases hv : verify_password p u.hashed_password with _ | _ <;> simp [hv]

/-- C4: `generate_unique_img_name` fails with the unpacking `ValueError`
exactly when the filename does not contain exactly one period; on a
filename of the shape `name.ext` with a single period it returns
`name ++ "_" ++ token ++ "." ++ ext`, preserving base name and extension. -/
theorem generate_unique_img_name_spec (token filename : List Char) :
    ((∃ e, generate_unique_img_name token filename = .error e) ↔
      filename.count '.' ≠ 1) ∧
    (∀ name ext, '.' ∉ name → '.' ∉ ext → filename = name ++ '.' :: ext →
      generate_unique_img_name token filename =
        .ok (name ++ '_' :: token ++ '.' :: ext)) := by
  constructor
  · have hlen := length_splitOnDot filename
    unfold generate_unique_img_name
    rcases hs : splitOnDot filename with _ | ⟨r1, rest1⟩
    · exact absurd hs (splitOnDot_ne_nil filename)
    · rw [hs] at hlen
      rcases rest1 with _ | ⟨r2, rest2⟩
      · simp only [List.length_cons, List.length_nil] at hlen
        constructor
        · intro _; omega
        · intro _; exact ⟨_, rfl⟩
      · rcases rest2 with _ | ⟨r3, rest3⟩
        · simp only [List.length_cons, List.length_nil] at hlen
          constructor
          · rintro ⟨e, he⟩; simp at he
          · intro hne; omega
        · simp only [List.length_cons] at hlen
          constructor
          · intro _; omega
          · intro _; exact ⟨_, rfl⟩
  · intro name ext hn he hf
    subst hf
    unfold generate_unique_img_name
    rw [splitOnDot_single hn he]

/-- C4 witness: `"noext"` (no period) fails; `"photo.png"` gets the token
spliced between base name and extension. -/
theorem generate_unique_img_name_spec_witness :
    (∃ e, generate_unique_img_name "abc123".toList "noext".toList =
      .error e) ∧
    generate_unique_img_name "abc123".toList "photo.png".toList =
      .ok ("photo".toList ++ '_' :: "abc123".toList ++ '.' :: "png".toList) :=
  ⟨(generate_unique_img_name_spec "abc123".toList "noext".toList).1.mpr
      (by decide),
   (generate_unique_img_name_spec "abc123".toList "photo.png".toList).2
      "photo".toList "png".toList (by decide) (by decide) rfl⟩

/-- C7: with email delivery disabled in configuration, `send_email` fails
on the leading assertion: the result is the assertion error and carries no
effect trace, so no message is built and no SMTP call is attempted. -/
theorem send_email_disabled (s : Settings)
    (email_to subject_template html_template : String)
    (h : s.EMAILS_ENABLED = false) :
    send_email s email_to subject_template html_template =
      .error "AssertionError: no provided configuration for email variables" := by
  unfold send_email
  rw [h]
  simp

/-- C7 witness: the concrete disabled configuration fails the assertion. -/
theorem send_email_disabled_witness :
    send_email disabledSettings "to@example.com" "Subject" "<p>Body</p>" =
      .error "AssertionError: no provided configuration for email variables" :=
  send_email_disabled disabledSettings "to@example.com" "Subject" "<p>Body</p>"
    rfl

/-- C10: for an existing user id, `save_image_in_db` rewrites only that
user's row, setting its avatar image path to the given file path and
preserving its every other field; every other row of the database is
untouched. -/
theorem save_image_in_db_frame (db : DB) (file_path : String) (user_id : Nat)
    (u : User) (h : getById db user_id = some u) :
    ∃ pre post u', db = pre ++ u :: post ∧
      save_image_in_db db file_path user_id = .ok (u', pre ++ u' :: post) ∧
      u'.image = some file_path ∧ u'.id = u.id ∧ u'.email = u.email ∧
      u'.hashed_password = u.hashed_password ∧ u'.is_active = u.is_active ∧
      u'.is_superuser = u.is_superuser ∧ u'.following = u.following := by
  rcases commitRow_decomp h { u with image := some file_path } with
    ⟨pre, post, hdb, _, hcommit⟩
  refine ⟨pre, post, { u with image := some file_path }, hdb, ?_,
    rfl, rfl, rfl, rfl, rfl, rfl, rfl⟩
  simp only [save_image_in_db, h]
  rw [hcommit]

/-- C10 witness: saving an avatar path for user 1 in a two-user database
changes only that row's image field. -/
theorem save_image_in_db_frame_witness :
    ∃ pre post u', [alice, bob] = pre ++ alice :: post ∧
      save_image_in_db [alice, bob] "static/avatar.png" 1 =
        .ok (u', pre ++ u' :: post) ∧
      u'.image = some "static/avatar.png" ∧ u'.id = alice.id ∧
      u'.email = alice.email ∧ u'.hashed_password = alice.hashed_password ∧
      u'.is_active = alice.is_active ∧ u'.is_superuser = alice.is_superuser ∧
      u'.following = alice.following :=
  save_image_in_db_frame [alice, bob] "static/avatar.png" 1 alice rfl

/-- C1 counterexample: a payload whose password field is present as the
empty string does not replace the stored hash — Python's truthiness test
`if update_data["password"]:` is false for `""`, so `update` returns the
row with its old hash, contradicting the claim's hash-and-replace clause;
moreover a payload with no password field does not leave the row quietly
unchanged but raises `KeyError`. -/
theorem update_empty_password_counterexample :
    (update [alice] alice [("password", "")] = .ok (alice, [alice]) ∧
      alice.hashed_password ≠ get_password_hash "") ∧
    update [alice] alice [("email", "new@example.com")] =
      .error "KeyError: password" := by
  refine ⟨⟨rfl, ?_⟩, rfl⟩
  decide

/-- C1 (amended): if the password key is absent from the update payload the
call raises `KeyError` (so no hashing happens and nothing is persisted); if
the key is present with the empty string, the payload is forwarded
unchanged (plaintext key included) and the stored hash is not altered; only
a present, non-empty password is hashed, at which point the plaintext key
is removed from the persisted payload and the stored hash is replaced by
the hash of the supplied value. -/
theorem update_password_handling (db : DB) (db_obj : User)
    (obj_in : List (String × String))
    (hno : lookupKey obj_in "hashed_password" = none) :
    (lookupKey obj_in "password" = none →
      update db db_obj obj_in = .error "KeyError: password") ∧
    (lookupKey obj_in "password" = some "" →
      update_data_transform obj_in = .ok obj_in ∧
      ∃ u' db', update db db_obj obj_in = .ok (u', db') ∧
        u'.hashed_password = db_obj.hashed_password) ∧
    (∀ pw, lookupKey obj_in "password" = some pw → pw ≠ "" →
      ∃ data, update_data_transform obj_in = .ok data ∧
        lookupKey data "password" = none ∧
        lookupKey data "hashed_password" = some (get_password_hash pw) ∧
        ∃ u' db', update db db_obj obj_in = .ok (u', db') ∧
          u'.hashed_password = get_password_hash pw) := by
  refine ⟨?_, ?_, ?_⟩
  · intro h
    unfold update update_data_transform
    rw [h]
  · intro h
    have htr : update_data_transform obj_in = .ok obj_in := by
      unfold update_data_transform
      rw [h]
      simp
    refine ⟨htr, crudbase_update_fields db_obj obj_in,
      commitRow db db_obj.id (crudbase_update_fields db_obj obj_in), ?_, ?_⟩
    · unfold update
      rw [htr]
    · rw [crudbase_hashed_password, hno]
  · intro pw h hpw
    set data := setKey (removeKey obj_in "password") "hashed_password"
      (get_password_hash pw) with hdata
    have htr : update_data_transform obj_in = .ok data := by
      unfold update_data_transform
      rw [h]
      simp [hpw, hdata]
    have hlp : lookupKey data "password" = none := by
      rw [hdata, lookupKey_setKey_ne (by decide),
        lookupKey_removeKey_self]
    have hlh : lookupKey data "hashed_password" =
        some (get_password_hash pw) := lookupKey_setKey_self _ _ _
    refine ⟨data, htr, hlp, hlh, crudbase_update_fields db_obj data,
      commitRow db db_obj.id (crudbase_update_fields db_obj data), ?_, ?_⟩
    · unfold update
      rw [htr]
    · rw [crudbase_hashed_password, hlh]

/-- C1 witness: concrete payloads on `alice` — absent key errors, empty
string leaves the hash, `"newpw"` is hashed with the plaintext key gone. -/
theorem update_password_handling_witness :
    (update [alice] alice [("email", "e@x.y")] = .error "KeyError: password") ∧
    (∃ u' db', update [alice] alice [("password", "")] = .ok (u', db') ∧
      u'.hashed_password = alice.hashed_password) ∧
    (∃ data, update_data_transform [("password", "newpw")] = .ok data ∧
      lookupKey data "password" = none ∧
      lookupKey data "hashed_password" = some (get_password_hash "newpw") ∧
      ∃ u' db', update [alice] alice [("password", "newpw")] = .ok (u', db') ∧
        u'.hashed_password = get_password_hash "newpw") :=
  ⟨(update_password_handling [alice] alice [("email", "e@x.y")] rfl).1 rfl,
   ((update_password_handling [alice] alice [("password", "")] rfl).2.1 rfl).2,
   (update_password_handling [alice] alice [("password", "newpw")] rfl).2.2
      "newpw" rfl (by decide)⟩

end FastAPIBlog
